import Mathlib

/-!
Verification model of the multi-protocol server configuration editor
(`ServerForm`): the load path (`useEffect` backfilling protocol slots and
deriving the enabled set), the enable/disable toggle, and the submission
reducer (`handleSubmit`) that filters, normalizes and assembles the
payload handed to the `onSubmit` collaborator.

JavaScript scalar values relevant to the reducer (ports, ratio) are
modelled by `JSVal`: `undefined`, a finite number (as a rational), or
`NaN`.  String-valued inputs behave, under the `Number(...)` coercion and
truthiness tests the source applies, exactly like one of these three
shapes, so the model loses no behavioural distinction for the predicates
involved.
-/

namespace ServerFormModel

/-- A JavaScript scalar as the reducer observes it: `undefined`, a finite
number, or `NaN`. -/
inductive JSVal where
  | undef : JSVal
  | num : ℚ → JSVal
  | nan : JSVal
deriving Repr, DecidableEq

/-- The `Number(...)` coercion; `none` stands for `NaN`. -/
def toNumber : JSVal → Option ℚ
  | .undef => none
  | .num q => some q
  | .nan => none

/-- JavaScript truthiness of a scalar: `undefined`, `NaN` and `0` are falsy. -/
def truthy : JSVal → Bool
  | .undef => false
  | .num q => q != 0
  | .nan => false

/-- The JavaScript `a || b` operator on scalars. -/
def jsOr (a b : JSVal) : JSVal := if truthy a then a else b

/-- Re-packaging of a `Number(...)` coercion result as a scalar. -/
def jsNumber (v : JSVal) : JSVal :=
  match toNumber v with
  | some q => .num q
  | none => .nan

/-- Modelled from the spec: the catalog order of the `protocols` constant
exported by `form-schema`, which is not among the provided sources.
Spec section 3 fixes the seven kinds in this order: shadowsocks, vless,
vmess, trojan, tuic, hysteria2, anytls. -/
def PROTOCOLS : List String :=
  ["shadowsocks", "vless", "vmess", "trojan", "tuic", "hysteria2", "anytls"]

/-- One protocol slot of the edited form state: the flat record carrying
the union of every kind's fields, as the form stores it (absent fields are
`none` / `undef`). -/
structure ProtocolConfig where
  type : String
  port : JSVal
  cipher : Option String := none
  server_key : Option String := none
  flow : Option String := none
  obfs_password : Option String := none
  hop_ports : Option String := none
  hop_interval : JSVal := .undef
  udp_relay_mode : Option String := none
  congestion_controller : Option String := none
  disable_sni : Option Bool := none
  reduce_rtt : Option Bool := none
  transport : Option String := none
  security : Option String := none
  host : Option String := none
  path : Option String := none
  service_name : Option String := none
  sni : Option String := none
  fingerprint : Option String := none
  allow_insecure : Option Bool := none
  reality_server_addr : Option String := none
  reality_server_port : JSVal := .undef
  reality_private_key : Option String := none
  reality_public_key : Option String := none
  reality_short_id : Option String := none
deriving Repr, DecidableEq

/-- Modelled from the spec: `getProtocolDefaultConfig` lives in
`form-schema`, which is not among the provided sources.  Spec section 4.2:
a total, pure factory returning a fully-populated default config per kind
(shadowsocks cipher `chacha20-ietf-poly1305`, vless flow and security
`none`, trojan security `tls`, tuic congestion `bbr` and relay `native`,
fingerprint `chrome`). -/
def getProtocolDefaultConfig (kind : String) : ProtocolConfig :=
  if kind = "shadowsocks" then
    { type := kind, port := .num 0, cipher := some "chacha20-ietf-poly1305" }
  else if kind = "vless" then
    { type := kind, port := .num 0, flow := some "none", transport := some "tcp",
      security := some "none", fingerprint := some "chrome" }
  else if kind = "vmess" then
    { type := kind, port := .num 0, transport := some "tcp", security := some "none",
      fingerprint := some "chrome" }
  else if kind = "trojan" then
    { type := kind, port := .num 0, transport := some "tcp", security := some "tls",
      fingerprint := some "chrome" }
  else if kind = "tuic" then
    { type := kind, port := .num 0, udp_relay_mode := some "native",
      congestion_controller := some "bbr", disable_sni := some false,
      reduce_rtt := some false, fingerprint := some "chrome" }
  else if kind = "hysteria2" then
    { type := kind, port := .num 0, obfs_password := some "", hop_ports := some "",
      hop_interval := .num 0, fingerprint := some "chrome" }
  else
    { type := kind, port := .num 0, fingerprint := some "chrome" }

/-- The whole edited form state (`useForm` values). -/
structure FormValues where
  name : String
  address : String
  country : String
  city : String
  ratio : JSVal
  protocols : List ProtocolConfig
deriving Repr, DecidableEq

/-- The optional `initialValues` prop: a partial `FormValues`. -/
structure PartialFormValues where
  name : Option String := none
  address : Option String := none
  country : Option String := none
  city : Option String := none
  ratio : Option JSVal := none
  protocols : Option (List ProtocolConfig) := none
deriving Repr, DecidableEq

/-- The `defaultValues` record passed to `useForm`: the base defaults with
`initialValues` spread on top; this is what a bare `form.reset()` restores. -/
def defaultValues (iv : Option PartialFormValues) : FormValues :=
  match iv with
  | none =>
    { name := "", address := "", country := "", city := "", ratio := .num 1,
      protocols := [] }
  | some v =>
    { name := v.name.getD "", address := v.address.getD "",
      country := v.country.getD "", city := v.city.getD "",
      ratio := v.ratio.getD (.num 1), protocols := v.protocols.getD [] }

/-- The component state the claims are about: the form values, the
caller-tracked enabled set (`protocolsEnabled`) and the sheet-open flag. -/
structure EditorState where
  formValues : FormValues
  protocolsEnabled : List String
  sheetOpen : Bool
deriving Repr, DecidableEq

/-- `initialValues.protocols?.find((p) => p.type === type)`. -/
def findProtocol (iv : PartialFormValues) (type : String) : Option ProtocolConfig :=
  (iv.protocols.getD []).find? (fun p => p.type == type)

/-- The load-time port test applied per found protocol in the `useEffect`:
`protocol.port && Number(protocol.port) > 0` (truthy and coerces above 0;
note there is no upper bound and no finiteness requirement beyond the
comparison itself). -/
def loadPortOk (v : JSVal) : Bool :=
  truthy v &&
    (match toNumber v with
     | some q => decide (0 < q)
     | none => false)

/-- The predicate of the `PROTOCOLS.filter` computing `enabledProtocols`
in the `useEffect`. -/
def loadPredB (iv : PartialFormValues) (type : String) : Bool :=
  match findProtocol iv type with
  | some protocol => loadPortOk protocol.port
  | none => false

/-- `setProtocolsEnabled(enabledProtocols)` in the `useEffect`. -/
def loadEnabledProtocols (iv : PartialFormValues) : List String :=
  PROTOCOLS.filter (loadPredB iv)

/-- The `form.reset({...})` argument in the `useEffect`: base defaults,
`initialValues` spread on top, and the protocols slots rebuilt as one slot
per catalog kind, the loaded config when one with that type exists and the
default factory output otherwise. -/
def loadFormValues (iv : PartialFormValues) : FormValues :=
  { name := iv.name.getD "", address := iv.address.getD "",
    country := iv.country.getD "", city := iv.city.getD "",
    ratio := iv.ratio.getD (.num 1),
    protocols := PROTOCOLS.map (fun type =>
      (findProtocol iv type).getD (getProtocolDefaultConfig type)) }

/-- Editor state right after the `useEffect` load of an existing node. -/
def loadEditor (iv : PartialFormValues) (sheetOpen : Bool) : EditorState :=
  { formValues := loadFormValues iv, protocolsEnabled := loadEnabledProtocols iv,
    sheetOpen := sheetOpen }

/-- The `form.reset({...})` argument of the new-node trigger button
(`initialValues` absent): base defaults with one default slot per kind. -/
def newNodeFormValues : FormValues :=
  { name := "", address := "", country := "", city := "", ratio := .num 1,
    protocols := PROTOCOLS.map getProtocolDefaultConfig }

/-- Editor state right after the new-node trigger click. -/
def newNodeEditor : EditorState :=
  { formValues := newNodeFormValues, protocolsEnabled := [], sheetOpen := true }

/-- The `Switch` toggle handler: append the kind on check, filter it out on
uncheck; nothing else in the state is touched. -/
def toggleProtocol (st : EditorState) (type : String) (checked : Bool) : EditorState :=
  if checked then
    { st with protocolsEnabled := st.protocolsEnabled ++ [type] }
  else
    { st with protocolsEnabled := st.protocolsEnabled.filter (fun p => p != type) }

/-- The commit-time port test inside the `handleSubmit` filter:
`Number.isFinite(port) && port > 0 && port <= 65535` for
`port = Number(p.port)`. -/
def portSubmitOk (v : JSVal) : Bool :=
  match toNumber v with
  | some port => decide (0 < port) && decide (port ≤ 65535)
  | none => false

/-- The `handleSubmit` filter callback: the entry at `index` is judged by
the catalog kind at that index (`PROTOCOLS[index]`), which must be in the
enabled set, and by its port. -/
def keepPredicate (protocolsEnabled : List String) (index : ℕ) (p : ProtocolConfig) : Bool :=
  match PROTOCOLS[index]? with
  | some protocolType => protocolsEnabled.contains protocolType && portSubmitOk p.port
  | none => false

/-- `Array.prototype.filter` with the element index, as `handleSubmit`
uses it. -/
def filterIdx {α : Type} (pred : ℕ → α → Bool) : ℕ → List α → List α
  | _, [] => []
  | i, p :: ps =>
    if pred i p then p :: filterIdx pred (i + 1) ps else filterIdx pred (i + 1) ps

/-- The `.map((p) => ({ ...p, port: Number(p.port) }))` step: every field
passes through unchanged except `port`, which is replaced by its numeric
coercion. -/
def normalizePort (p : ProtocolConfig) : ProtocolConfig :=
  { p with port := jsNumber p.port }

/-- The `filtered` list computed by `handleSubmit`. -/
def submitFiltered (protocolsEnabled : List String) (ps : List ProtocolConfig) :
    List ProtocolConfig :=
  (filterIdx (keepPredicate protocolsEnabled) 0 ps).map normalizePort

/-- The payload `handleSubmit` hands to `onSubmit`. -/
structure Submission where
  name : String
  country : String
  city : String
  ratio : JSVal
  address : String
  protocols : List ProtocolConfig
deriving Repr, DecidableEq

/-- Observable outcome of one `handleSubmit` run: whether the validation
toast fired, what (if anything) `onSubmit` was called with, and the
resulting component state. -/
structure SubmitStep where
  toastError : Bool
  submission : Option Submission
  state : EditorState
deriving Repr, DecidableEq

/-- `handleSubmit`: filter the protocol slots, reject with a toast when
nothing survives, otherwise assemble the payload, call `onSubmit`, and on
a truthy result reset the form to its `defaultValues` and close the sheet. -/
def handleSubmit (st : EditorState) (onSubmitOk : Submission → Bool)
    (initialValues : Option PartialFormValues) : SubmitStep :=
  let filtered := submitFiltered st.protocolsEnabled st.formValues.protocols
  if filtered.length = 0 then
    { toastError := true, submission := none, state := st }
  else
    let result : Submission :=
      { name := st.formValues.name, country := st.formValues.country,
        city := st.formValues.city,
        ratio := jsNumber (jsOr st.formValues.ratio (.num 1)),
        address := st.formValues.address, protocols := filtered }
    if onSubmitOk result then
      let cleared : EditorState :=
        { st with formValues := defaultValues initialValues, sheetOpen := false }
      { toastError := false, submission := some result, state := cleared }
    else
      { toastError := false, submission := some result, state := st }

/-- The keep condition exactly as the specification words it: the catalog
kind at the entry's index is in the enabled set and the port parses to a
finite INTEGER strictly above 0 and at most 65535. -/
def specKeepIntB (enabled : List String) (index : ℕ) (p : ProtocolConfig) : Bool :=
  (match PROTOCOLS[index]? with
   | some t => enabled.contains t
   | none => false) &&
  (match toNumber p.port with
   | some q => q.den == 1 && decide (0 < q) && decide (q ≤ 65535)
   | none => false)

/-- The keep condition as amended: the catalog kind at the entry's index
is in the enabled set and the port parses to a finite NUMBER (integrality
is not required) strictly above 0 and at most 65535. -/
def specKeepNumB (enabled : List String) (index : ℕ) (p : ProtocolConfig) : Bool :=
  (match PROTOCOLS[index]? with
   | some t => enabled.contains t
   | none => false) &&
  (match toNumber p.port with
   | some q => decide (0 < q) && decide (q ≤ 65535)
   | none => false)

/-- The protocol configs of a loaded node that were enabled at load time
(port truthy and coercing above 0) and additionally pass the commit-time
port test (finite, above 0, at most 65535), in catalog order, ports
normalized: the list the round-trip property says a no-edit submission
reproduces. -/
def originallyKept (iv : PartialFormValues) : List ProtocolConfig :=
  PROTOCOLS.filterMap (fun type =>
    match findProtocol iv type with
    | some p =>
      if loadPortOk p.port && portSubmitOk p.port then some (normalizePort p) else none
    | none => none)

/-- A shadowsocks slot with the canonical valid port 8388. -/
def ssCfg8388 : ProtocolConfig := { type := "shadowsocks", port := .num 8388 }

/-- A shadowsocks slot whose port is the non-integer number 80.5. -/
def ssHalfPort : ProtocolConfig := { type := "shadowsocks", port := .num (mkRat 161 2) }

/-- An enabled vless entry with transport mode tcp that still carries a
stale host and path from an earlier transport choice. -/
def vlessStale : ProtocolConfig :=
  { type := "vless", port := .num 443, transport := some "tcp",
    host := some "stale.example.com", path := some "/ws", security := some "none" }

/-- Form values with nothing entered and no slots. -/
def emptyFormState : FormValues :=
  { name := "", address := "", country := "", city := "", ratio := .num 1,
    protocols := [] }

/-- An editor state with nothing enabled and no slots. -/
def emptyState : EditorState :=
  { formValues := emptyFormState, protocolsEnabled := [], sheetOpen := true }

/-- Form values with ratio 0 and a valid shadowsocks slot. -/
def ratioZeroForm : FormValues :=
  { name := "n", address := "a", country := "", city := "", ratio := .num 0,
    protocols := [ssCfg8388] }

/-- An editor state whose operator entered ratio 0 and a valid
shadowsocks port. -/
def ratioZeroState : EditorState :=
  { formValues := ratioZeroForm, protocolsEnabled := ["shadowsocks"], sheetOpen := true }

/-- Form values with ratio 2 and a valid shadowsocks slot. -/
def ratioTwoForm : FormValues :=
  { name := "n", address := "a", country := "", city := "", ratio := .num 2,
    protocols := [ssCfg8388] }

/-- An editor state whose operator entered ratio 2 and a valid
shadowsocks port. -/
def ratioTwoState : EditorState :=
  { formValues := ratioTwoForm, protocolsEnabled := ["shadowsocks"], sheetOpen := true }

/-- The submission `handleSubmit` assembles from `ratioTwoState`. -/
def ratioTwoSubmission : Submission :=
  { name := "n", country := "", city := "", ratio := .num 2, address := "a",
    protocols := [normalizePort ssCfg8388] }

/-- A loaded node holding one shadowsocks config with the out-of-range
stored port 70000. -/
def iv70000 : PartialFormValues :=
  { protocols := some [{ type := "shadowsocks", port := .num 70000 }] }

/-- A loaded node holding one shadowsocks config with valid port 8388. -/
def ivRound : PartialFormValues :=
  { protocols := some [ssCfg8388] }

/-- The indexed filter of `handleSubmit` agrees with filtering the
index-annotated list: the kept entries are exactly the `(index, entry)`
pairs passing the predicate, in order. -/
theorem filterIdx_eq_enumFrom {α : Type} (pred : ℕ → α → Bool) (i : ℕ) (l : List α) :
    filterIdx pred i l =
      ((List.enumFrom i l).filter (fun x => pred x.1 x.2)).map Prod.snd := by
  induction l generalizing i with
  | nil => rfl
  | cons a l ih =>
    simp only [filterIdx, List.enumFrom, List.filter_cons]
    cases h : pred i a
    · simp [h, ih (i + 1)]
    · simp [h, ih (i + 1)]

/-- The indexed filter returns a sublist of its input: order is preserved
and nothing is duplicated or invented. -/
theorem filterIdx_sublist {α : Type} (pred : ℕ → α → Bool) (i : ℕ) (l : List α) :
    List.Sublist (filterIdx pred i l) l := by
  induction l generalizing i with
  | nil => simp [filterIdx]
  | cons a l ih =>
    simp only [filterIdx]
    cases h : pred i a
    · simp only [Bool.false_eq_true, if_false]
      exact (ih (i + 1)).cons a
    · simp only [if_true]
      exact (ih (i + 1)).cons₂ a

theorem getElem?_append_length_add {α : Type} :
    ∀ (pre l : List α) (j : ℕ), (pre ++ l)[pre.length + j]? = l[j]? := by
  intro pre
  induction pre with
  | nil => intro l j; simp
  | cons a pre ih =>
    intro l j
    have h1 : (a :: pre).length + j = pre.length + j + 1 := by
      simp only [List.length_cons]
      omega
    rw [List.cons_append, h1, List.getElem?_cons_succ]
    exact ih l j

/-- Membership test on the load-time enabled set, for catalog kinds,
matches the per-kind load predicate. -/
theorem contains_loadEnabledProtocols (iv : PartialFormValues) (t : String)
    (ht : t ∈ PROTOCOLS) :
    (loadEnabledProtocols iv).contains t = loadPredB iv t := by
  cases h : loadPredB iv t
  · have hnm : t ∉ loadEnabledProtocols iv := by
      intro hm
      have hp := (List.mem_filter.mp hm).2
      rw [h] at hp
      exact Bool.false_ne_true hp
    exact Bool.eq_false_iff.mpr (fun hc => hnm (List.elem_iff.mp hc))
  · exact List.elem_iff.mpr (List.mem_filter.mpr ⟨ht, h⟩)

theorem loadSubmit_aux (iv : PartialFormValues) :
    ∀ (rest pre : List String), PROTOCOLS = pre ++ rest →
      (filterIdx (keepPredicate (loadEnabledProtocols iv)) pre.length
          (rest.map (fun type =>
            (findProtocol iv type).getD (getProtocolDefaultConfig type)))).map
          normalizePort
        = rest.filterMap (fun type =>
            match findProtocol iv type with
            | some p =>
              if loadPortOk p.port && portSubmitOk p.port then some (normalizePort p)
              else none
            | none => none) := by
  intro rest
  induction rest with
  | nil => intro pre h; rfl
  | cons t rest ih =>
    intro pre h
    have hget : PROTOCOLS[pre.length]? = some t := by
      rw [h]
      simpa using getElem?_append_length_add pre (t :: rest) 0
    have hmem : t ∈ PROTOCOLS := List.getElem?_mem hget
    have hnext : PROTOCOLS = (pre ++ [t]) ++ rest := by rw [h]; simp
    have ihx := ih (pre ++ [t]) hnext
    have hlen : (pre ++ [t]).length = pre.length + 1 := by simp
    rw [hlen] at ihx
    have hcont := contains_loadEnabledProtocols iv t hmem
    cases hfind : findProtocol iv t with
    | none =>
      have hpred : loadPredB iv t = false := by simp [loadPredB, hfind]
      rw [hpred] at hcont
      simp only [List.map_cons, List.filterMap_cons, filterIdx, hfind,
        Option.getD_none, keepPredicate, hget, hcont, Bool.false_and,
        Bool.false_eq_true, if_false]
      exact ihx
    | some p =>
      have hpred : loadPredB iv t = loadPortOk p.port := by simp [loadPredB, hfind]
      rw [hpred] at hcont
      simp only [List.map_cons, List.filterMap_cons, filterIdx, hfind,
        Option.getD_some, keepPredicate, hget, hcont]
      cases hc : loadPortOk p.port && portSubmitOk p.port
      · simp only [hc, Bool.false_eq_true, if_false]
        exact ihx
      · simp only [hc, if_true, List.map_cons]
        rw [ihx]

/-- Reducing a freshly loaded, unedited node keeps exactly the originally
enabled protocols whose ports also pass the commit-time test. -/
theorem loadSubmit_eq (iv : PartialFormValues) :
    submitFiltered (loadEnabledProtocols iv) (loadFormValues iv).protocols
      = originallyKept iv := by
  have h := loadSubmit_aux iv PROTOCOLS [] rfl
  simpa [submitFiltered, loadFormValues, originallyKept] using h

/-- The commit-time filter callback computes exactly the amended keep
condition. -/
theorem keepPredicate_eq_spec (enabled : List String) (i : ℕ) (p : ProtocolConfig) :
    keepPredicate enabled i p = specKeepNumB enabled i p := by
  cases h : PROTOCOLS[i]?
  · simp [keepPredicate, specKeepNumB, h]
  · simp [keepPredicate, specKeepNumB, h, portSubmitOk]

/-- When the filtered list is nonempty, `handleSubmit` calls `onSubmit`
with the assembled payload. -/
theorem handleSubmit_submission (st : EditorState) (onSubmitOk : Submission → Bool)
    (iv : Option PartialFormValues)
    (h : submitFiltered st.protocolsEnabled st.formValues.protocols ≠ []) :
    (handleSubmit st onSubmitOk iv).submission =
      some { name := st.formValues.name, country := st.formValues.country,
             city := st.formValues.city,
             ratio := jsNumber (jsOr st.formValues.ratio (.num 1)),
             address := st.formValues.address,
             protocols := submitFiltered st.protocolsEnabled st.formValues.protocols } := by
  have hlen : ¬ (submitFiltered st.protocolsEnabled st.formValues.protocols).length = 0 :=
    fun h0 => h (List.length_eq_zero.mp h0)
  simp only [handleSubmit]
  rw [if_neg hlen]
  cases onSubmitOk _ <;> rfl

/-- Inversion: whatever payload `onSubmit` received is the assembled one. -/
theorem handleSubmit_submission_eq (st : EditorState) (onSubmitOk : Submission → Bool)
    (iv : Option PartialFormValues) (s : Submission)
    (h : (handleSubmit st onSubmitOk iv).submission = some s) :
    s = { name := st.formValues.name, country := st.formValues.country,
          city := st.formValues.city,
          ratio := jsNumber (jsOr st.formValues.ratio (.num 1)),
          address := st.formValues.address,
          protocols := submitFiltered st.protocolsEnabled st.formValues.protocols } := by
  by_cases h0 : (submitFiltered st.protocolsEnabled st.formValues.protocols).length = 0
  · exfalso
    rw [show (handleSubmit st onSubmitOk iv).submission = none by
      simp [handleSubmit, h0]] at h
    exact Option.noConfusion h
  · rw [handleSubmit_submission st onSubmitOk iv
      (fun he => h0 (by rw [he]; rfl))] at h
    exact (Option.some_injective _ h).symm

/-- C1 counterexample: with enabled = {shadowsocks} and a shadowsocks slot
whose port is the non-integer 80.5, `handleSubmit` keeps the entry even
though the claim's condition (port parses to a finite integer) rejects it,
so the reducer does not keep exactly the claimed set. -/
theorem C1_counterexample :
    submitFiltered ["shadowsocks"] [ssHalfPort] = [normalizePort ssHalfPort] ∧
      specKeepIntB ["shadowsocks"] 0 ssHalfPort = false := by
  exact ⟨by decide, by decide⟩

/-- C1 (amended): the Submission Reducer keeps exactly those protocol
configs whose kind, taken in catalog order by index, is in the
caller-tracked enabled set and whose port parses to a finite NUMBER
strictly above 0 and at most 65535 (integrality is not required); in
particular, with enabled = {shadowsocks} and shadowsocks port 8388,
whatever stale data the other six slots hold, the kept list is exactly the
one shadowsocks entry with port 8388. -/
theorem C1_keep_exactly :
    (∀ (enabled : List String) (ps : List ProtocolConfig),
      submitFiltered enabled ps =
        ((List.enumFrom 0 ps).filter (fun x => specKeepNumB enabled x.1 x.2)).map
          (fun x => normalizePort x.2)) ∧
    (∀ (p c1 c2 c3 c4 c5 c6 : ProtocolConfig), p.port = .num 8388 →
      submitFiltered ["shadowsocks"] [p, c1, c2, c3, c4, c5, c6] = [normalizePort p]) := by
  constructor
  · intro enabled ps
    have h1 : (fun x : ℕ × ProtocolConfig => keepPredicate enabled x.1 x.2)
        = (fun x : ℕ × ProtocolConfig => specKeepNumB enabled x.1 x.2) := by
      funext x
      exact keepPredicate_eq_spec enabled x.1 x.2
    show (filterIdx (keepPredicate enabled) 0 ps).map normalizePort = _
    rw [filterIdx_eq_enumFrom, h1, List.map_map]
    rfl
  · intro p c1 c2 c3 c4 c5 c6 hp
    have knot : ∀ (i : ℕ) (t : String) (c : ProtocolConfig), PROTOCOLS[i]? = some t →
        t ≠ "shadowsocks" → keepPredicate ["shadowsocks"] i c = false := by
      intro i t c hg hne
      simp [keepPredicate, hg, hne]
    have hport : portSubmitOk (.num 8388) = true := by decide
    have k0 : keepPredicate ["shadowsocks"] 0 p = true := by
      have e0 : PROTOCOLS[0]? = some "shadowsocks" := rfl
      simp [keepPredicate, e0, hp, hport]
    simp [submitFiltered, filterIdx, k0, knot 1 "vless" c1 rfl (by decide),
      knot 2 "vmess" c2 rfl (by decide), knot 3 "trojan" c3 rfl (by decide),
      knot 4 "tuic" c4 rfl (by decide), knot 5 "hysteria2" c5 rfl (by decide),
      knot 6 "anytls" c6 rfl (by decide)]

/-- C1 witness: the amended theorem applied at a concrete shadowsocks
config with port 8388 and six default slots. -/
theorem C1_witness :
    submitFiltered ["shadowsocks"]
        [ssCfg8388, getProtocolDefaultConfig "vless", getProtocolDefaultConfig "vmess",
         getProtocolDefaultConfig "trojan", getProtocolDefaultConfig "tuic",
         getProtocolDefaultConfig "hysteria2", getProtocolDefaultConfig "anytls"]
      = [normalizePort ssCfg8388] :=
  C1_keep_exactly.2 ssCfg8388 (getProtocolDefaultConfig "vless")
    (getProtocolDefaultConfig "vmess") (getProtocolDefaultConfig "trojan")
    (getProtocolDefaultConfig "tuic") (getProtocolDefaultConfig "hysteria2")
    (getProtocolDefaultConfig "anytls") rfl

/-- C2 counterexample: an enabled vless entry with transport mode tcp and
stale host/path fields is submitted with host and path still present —
`handleSubmit` strips nothing, contradicting the claim that
kind-irrelevant stale fields are absent from the submitted entry. -/
theorem C2_counterexample :
    submitFiltered ["vless"] [getProtocolDefaultConfig "shadowsocks", vlessStale]
        = [normalizePort vlessStale] ∧
      (normalizePort vlessStale).transport = some "tcp" ∧
      (normalizePort vlessStale).host = some "stale.example.com" ∧
      (normalizePort vlessStale).path = some "/ws" := by
  exact ⟨by decide, by decide, by decide, by decide⟩

/-- C2 (amended): every entry of the produced protocols list is one of the
form-state entries passed through whole: every field is unchanged except
the port, which is replaced by its numeric coercion; stale fields are not
stripped. -/
theorem C2_passthrough (enabled : List String) (ps : List ProtocolConfig)
    (p : ProtocolConfig) (hp : p ∈ submitFiltered enabled ps) :
    ∃ q ∈ ps, p = { q with port := jsNumber q.port } := by
  obtain ⟨q, hq, rfl⟩ := List.mem_map.mp hp
  exact ⟨q, (filterIdx_sublist _ 0 ps).subset hq, rfl⟩

/-- C2 witness: the pass-through theorem applied at a concrete kept
entry. -/
theorem C2_witness :
    ∃ q ∈ [ssCfg8388], normalizePort ssCfg8388 = { q with port := jsNumber q.port } :=
  C2_passthrough ["shadowsocks"] [ssCfg8388] (normalizePort ssCfg8388) (by decide)

/-- C3: when no protocol both enabled and port-valid survives the filter,
`handleSubmit` fires the single validation toast, produces no submission,
never calls `onSubmit`, and leaves the whole editor state — form values,
enabled set, and the open sheet — untouched. -/
theorem C3_empty_rejects (st : EditorState) (onSubmitOk : Submission → Bool)
    (iv : Option PartialFormValues)
    (h : submitFiltered st.protocolsEnabled st.formValues.protocols = []) :
    handleSubmit st onSubmitOk iv =
      { toastError := true, submission := none, state := st } := by
  simp [handleSubmit, h]

/-- C3 witness: the rejection theorem applied at a state with nothing
enabled. -/
theorem C3_witness :
    handleSubmit emptyState (fun _ => true) none =
      { toastError := true, submission := none, state := emptyState } :=
  C3_empty_rejects emptyState (fun _ => true) none (by decide)

/-- C4: loading an existing node computes the enabled set and backfills
the slots; reducing it with no edits keeps exactly the originally enabled
protocols whose ports also pass the commit-time validity test, in catalog
order — no entry silently dropped, none added — and when that list is
nonempty the assembled submission carries exactly it. -/
theorem C4_round_trip (iv : PartialFormValues) (onSubmitOk : Submission → Bool) :
    submitFiltered (loadEditor iv true).protocolsEnabled
        (loadEditor iv true).formValues.protocols = originallyKept iv ∧
    (originallyKept iv ≠ [] →
      (handleSubmit (loadEditor iv true) onSubmitOk (some iv)).submission.map
          Submission.protocols = some (originallyKept iv)) := by
  have hmain : submitFiltered (loadEditor iv true).protocolsEnabled
      (loadEditor iv true).formValues.protocols = originallyKept iv := loadSubmit_eq iv
  refine ⟨hmain, fun hne => ?_⟩
  rw [handleSubmit_submission (loadEditor iv true) onSubmitOk (some iv)
    (by rw [hmain]; exact hne)]
  simp [hmain]

/-- C4 witness: the round-trip theorem applied at a loaded node holding
one shadowsocks config with valid port 8388. -/
theorem C4_witness :
    submitFiltered (loadEditor ivRound true).protocolsEnabled
        (loadEditor ivRound true).formValues.protocols = originallyKept ivRound ∧
      (handleSubmit (loadEditor ivRound true) (fun _ => true) (some ivRound)).submission.map
          Submission.protocols = some (originallyKept ivRound) :=
  ⟨(C4_round_trip ivRound (fun _ => true)).1,
   (C4_round_trip ivRound (fun _ => true)).2 (by decide)⟩

/-- C5 counterexample: the operator enters ratio 0 — a finite decimal at
least 0 — but the committed ratio is 1, because `Number(values.ratio || 1)`
treats the falsy 0 as absent; so not every finite ratio at least 0 is
committed as that same number. -/
theorem C5_counterexample :
    ratioZeroState.formValues.ratio = .num 0 ∧
      (handleSubmit ratioZeroState (fun _ => true) none).submission.map Submission.ratio
        = some (.num 1) := by
  exact ⟨by decide, by decide⟩

/-- C5 (amended): whenever a submission is produced its ratio is the
numeric coercion of `ratio || 1`: always a finite number, never NaN or
undefined; a finite entered ratio other than 0 is committed unchanged,
while an absent, NaN, or zero ratio is committed as 1. -/
theorem C5_ratio (st : EditorState) (onSubmitOk : Submission → Bool)
    (iv : Option PartialFormValues) (s : Submission)
    (h : (handleSubmit st onSubmitOk iv).submission = some s) :
    (∃ q : ℚ, s.ratio = .num q) ∧
    (∀ q : ℚ, st.formValues.ratio = .num q → q ≠ 0 → s.ratio = .num q) ∧
    ((st.formValues.ratio = .num 0 ∨ st.formValues.ratio = .undef ∨
        st.formValues.ratio = .nan) → s.ratio = .num 1) := by
  have hs := handleSubmit_submission_eq st onSubmitOk iv s h
  have hr : s.ratio = jsNumber (jsOr st.formValues.ratio (.num 1)) := by rw [hs]
  refine ⟨?_, ?_, ?_⟩
  · rw [hr]
    cases hv : st.formValues.ratio with
    | undef => exact ⟨1, by simp [jsOr, truthy, jsNumber, toNumber]⟩
    | nan => exact ⟨1, by simp [jsOr, truthy, jsNumber, toNumber]⟩
    | num q =>
      by_cases hq : q = 0
      · subst hq
        exact ⟨1, by simp [jsOr, truthy, jsNumber, toNumber]⟩
      · exact ⟨q, by simp [jsOr, truthy, jsNumber, toNumber, bne_iff_ne, hq]⟩
  · intro q hv hq
    rw [hr, hv]
    simp [jsOr, truthy, jsNumber, toNumber, bne_iff_ne, hq]
  · intro hv
    rcases hv with hv | hv | hv <;> rw [hr, hv] <;>
      simp [jsOr, truthy, jsNumber, toNumber]

/-- C5 witness: the ratio theorem applied at a state whose entered ratio
is 2. -/
theorem C5_witness :
    (∃ q : ℚ, ratioTwoSubmission.ratio = .num q) ∧
    (∀ q : ℚ, ratioTwoState.formValues.ratio = .num q → q ≠ 0 →
      ratioTwoSubmission.ratio = .num q) ∧
    ((ratioTwoState.formValues.ratio = .num 0 ∨
        ratioTwoState.formValues.ratio = .undef ∨
        ratioTwoState.formValues.ratio = .nan) → ratioTwoSubmission.ratio = .num 1) :=
  C5_ratio ratioTwoState (fun _ => true) none ratioTwoSubmission (by decide)

/-- C6: the reducer judges each slot by its index against the catalog —
the entry's own type field never affects the keep decision — so an entry
misaligned with catalog order is kept or dropped purely by position (a
vless-typed entry sitting at index 0 is kept when shadowsocks is enabled
and silently dropped when vless is), and the kept list is a sublist of the
normalized slot array: catalog order, stable, deterministic. -/
theorem C6_position_based :
    (∀ (enabled : List String) (i : ℕ) (p : ProtocolConfig) (t : String),
      keepPredicate enabled i { p with type := t } = keepPredicate enabled i p) ∧
    submitFiltered ["shadowsocks"] [{ type := "vless", port := .num 8388 }]
        = [normalizePort { type := "vless", port := .num 8388 }] ∧
    submitFiltered ["vless"] [{ type := "vless", port := .num 8388 }] = [] ∧
    (∀ (enabled : List String) (ps : List ProtocolConfig),
      List.Sublist (submitFiltered enabled ps) (ps.map normalizePort)) := by
  refine ⟨fun enabled i p t => rfl, by decide, by decide, fun enabled ps => ?_⟩
  exact (filterIdx_sublist (keepPredicate enabled) 0 ps).map normalizePort

/-- C7: toggling a protocol's switch changes only that kind's membership
in the enabled set — form values and sheet state are untouched and other
kinds' membership is preserved — so disabling then re-enabling restores
the prior input; and a kind missing from the enabled set can never pass
the submission filter, so the retained values of a disabled protocol never
reach the submission. -/
theorem C7_toggle_frame (st : EditorState) (t : String) (checked : Bool) :
    ((toggleProtocol st t checked).formValues = st.formValues ∧
     (toggleProtocol st t checked).sheetOpen = st.sheetOpen) ∧
    (∀ k : String, k ≠ t →
      ((toggleProtocol st t checked).protocolsEnabled.contains k
        = st.protocolsEnabled.contains k)) ∧
    ((toggleProtocol st t true).protocolsEnabled.contains t = true ∧
     (toggleProtocol st t false).protocolsEnabled.contains t = false) ∧
    (toggleProtocol (toggleProtocol st t false) t true).formValues = st.formValues ∧
    (∀ (i : ℕ) (p : ProtocolConfig) (k : String), PROTOCOLS[i]? = some k →
      st.protocolsEnabled.contains k = false →
      keepPredicate st.protocolsEnabled i p = false) := by
  refine ⟨?_, ?_, ⟨?_, ?_⟩, rfl, ?_⟩
  · cases checked <;> exact ⟨rfl, rfl⟩
  · intro k hk
    cases checked
    · show (st.protocolsEnabled.filter (fun p => p != t)).contains k
        = st.protocolsEnabled.contains k
      cases hc : st.protocolsEnabled.contains k
      · apply Bool.eq_false_iff.mpr
        intro hmem
        have hm := (List.mem_filter.mp (List.elem_iff.mp hmem)).1
        have hc2 : List.elem k st.protocolsEnabled = false := hc
        exact absurd (List.elem_iff.mpr hm) (by rw [hc2]; exact Bool.false_ne_true)
      · exact List.elem_iff.mpr
          (List.mem_filter.mpr ⟨List.elem_iff.mp hc, by simpa using hk⟩)
    · show (st.protocolsEnabled ++ [t]).contains k = st.protocolsEnabled.contains k
      cases hc : st.protocolsEnabled.contains k
      · apply Bool.eq_false_iff.mpr
        intro hmem
        rcases List.mem_append.mp (List.elem_iff.mp hmem) with h1 | h1
        · have hc2 : List.elem k st.protocolsEnabled = false := hc
          exact absurd (List.elem_iff.mpr h1) (by rw [hc2]; exact Bool.false_ne_true)
        · exact hk (by simpa using h1)
      · exact List.elem_iff.mpr (List.mem_append.mpr (Or.inl (List.elem_iff.mp hc)))
  · show (st.protocolsEnabled ++ [t]).contains t = true
    exact List.elem_iff.mpr (List.mem_append.mpr (Or.inr (List.mem_singleton.mpr rfl)))
  · show (st.protocolsEnabled.filter (fun p => p != t)).contains t = false
    apply Bool.eq_false_iff.mpr
    intro hmem
    have hf := (List.mem_filter.mp (List.elem_iff.mp hmem)).2
    simp at hf
  · intro i p k hget hc
    simp only [keepPredicate, hget, hc, Bool.false_and]

/-- C7 witness: the toggle frame theorem applied at a concrete state, the
other-kind hypothesis discharged at shadowsocks vs vless. -/
theorem C7_witness :
    (toggleProtocol ratioTwoState "vless" true).formValues = ratioTwoState.formValues ∧
      (toggleProtocol ratioTwoState "vless" true).protocolsEnabled.contains "shadowsocks"
        = ratioTwoState.protocolsEnabled.contains "shadowsocks" :=
  ⟨(C7_toggle_frame ratioTwoState "vless" true).1.1,
   (C7_toggle_frame ratioTwoState "vless" true).2.1 "shadowsocks" (by decide)⟩

/-- C8: after either initialization path the protocols array has exactly
one slot per supported kind, in catalog order: on the new-node path every
slot is the Protocol Default Factory output for its kind, and on the load
path each kind's slot is the loaded config with that type when one exists
and the factory default otherwise; either way the slot is a populated
config whose type tag is the kind. -/
theorem C8_slots (iv : PartialFormValues) (i : ℕ) (t : String)
    (h : PROTOCOLS[i]? = some t) :
    newNodeFormValues.protocols.length = PROTOCOLS.length ∧
    (loadFormValues iv).protocols.length = PROTOCOLS.length ∧
    newNodeFormValues.protocols[i]? = some (getProtocolDefaultConfig t) ∧
    (loadFormValues iv).protocols[i]? =
      some ((findProtocol iv t).getD (getProtocolDefaultConfig t)) ∧
    (getProtocolDefaultConfig t).type = t ∧
    (∀ p, findProtocol iv t = some p → p.type = t) := by
  refine ⟨by simp [newNodeFormValues], by simp [loadFormValues], ?_, ?_, ?_, ?_⟩
  · show (PROTOCOLS.map getProtocolDefaultConfig)[i]? = _
    rw [List.getElem?_map, h]
    rfl
  · show (PROTOCOLS.map (fun type =>
      (findProtocol iv type).getD (getProtocolDefaultConfig type)))[i]? = _
    rw [List.getElem?_map, h]
    rfl
  · unfold getProtocolDefaultConfig
    split_ifs <;> rfl
  · intro p hp
    simp only [findProtocol] at hp
    have hbeq := List.find?_some hp
    exact eq_of_beq hbeq

/-- C8 witness: the slot theorem applied at index 0 (shadowsocks) of a
loaded node. -/
theorem C8_witness :
    newNodeFormValues.protocols.length = PROTOCOLS.length ∧
      (loadFormValues ivRound).protocols[0]? =
        some ((findProtocol ivRound "shadowsocks").getD
          (getProtocolDefaultConfig "shadowsocks")) :=
  ⟨(C8_slots ivRound 0 "shadowsocks" rfl).1,
   (C8_slots ivRound 0 "shadowsocks" rfl).2.2.2.1⟩

/-- C9: after `onSubmit` is invoked with the submission, a truthy result
ends the editing session — the form is reset to its default values and the
sheet is closed — while a falsy result leaves the editor state (form
values, enabled set, open sheet) exactly as it was. -/
theorem C9_commit_outcome (st : EditorState) (onSubmitOk : Submission → Bool)
    (iv : Option PartialFormValues) (s : Submission)
    (h : (handleSubmit st onSubmitOk iv).submission = some s) :
    (onSubmitOk s = true →
      (handleSubmit st onSubmitOk iv).state =
        { st with formValues := defaultValues iv, sheetOpen := false }) ∧
    (onSubmitOk s = false → (handleSubmit st onSubmitOk iv).state = st) := by
  by_cases h0 : (submitFiltered st.protocolsEnabled st.formValues.protocols).length = 0
  · exfalso
    rw [show (handleSubmit st onSubmitOk iv).submission = none by
      simp [handleSubmit, h0]] at h
    exact Option.noConfusion h
  · have hs := handleSubmit_submission_eq st onSubmitOk iv s h
    constructor
    · intro hok
      rw [hs] at hok
      simp [handleSubmit, h0, hok]
    · intro hko
      rw [hs] at hko
      simp [handleSubmit, h0, hko]

/-- C9 witness: the commit outcome theorem at a concrete state with an
accepting collaborator: the session ends with the form reset and the
sheet closed. -/
theorem C9_witness :
    (handleSubmit ratioTwoState (fun _ => true) none).state =
      { ratioTwoState with formValues := defaultValues none, sheetOpen := false } :=
  (C9_commit_outcome ratioTwoState (fun _ => true) none ratioTwoSubmission
    (by decide)).1 rfl

/-- C10: at load time a kind is enabled iff the loaded node has a config
with that type whose port is truthy and coerces to a number strictly
above 0 — with no upper bound, so a stored port above 65535 (such as
70000) still enables its protocol in the editor; yet any slot whose port
exceeds 65535 fails the commit-time filter, and the concrete 70000 node is
enabled at load and rejected whole at commit. -/
theorem C10_load_no_upper_bound (iv : PartialFormValues) (t : String)
    (ht : t ∈ PROTOCOLS) :
    ((loadEnabledProtocols iv).contains t = true ↔
      ∃ p, findProtocol iv t = some p ∧ truthy p.port = true ∧
        ∃ q : ℚ, toNumber p.port = some q ∧ 0 < q) ∧
    (∀ (p : ProtocolConfig) (q : ℚ), findProtocol iv t = some p →
      toNumber p.port = some q → 0 < q →
      (loadEnabledProtocols iv).contains t = true) ∧
    (∀ (enabled : List String) (i : ℕ) (p : ProtocolConfig) (q : ℚ),
      toNumber p.port = some q → 65535 < q → keepPredicate enabled i p = false) ∧
    ((loadEnabledProtocols iv70000).contains "shadowsocks" = true ∧
      (handleSubmit (loadEditor iv70000 true) (fun _ => true) (some iv70000)).submission
        = none) := by
  have hiff : (loadEnabledProtocols iv).contains t = true ↔
      ∃ p, findProtocol iv t = some p ∧ truthy p.port = true ∧
        ∃ q : ℚ, toNumber p.port = some q ∧ 0 < q := by
    rw [contains_loadEnabledProtocols iv t ht]
    cases hfind : findProtocol iv t with
    | none => simp [loadPredB, hfind]
    | some p =>
      cases htn : toNumber p.port with
      | none => simp [loadPredB, hfind, loadPortOk, htn]
      | some q => simp [loadPredB, hfind, loadPortOk, htn]
  refine ⟨hiff, ?_, ?_, by decide, by decide⟩
  · intro p q hfind htn hq
    refine hiff.mpr ⟨p, hfind, ?_, ⟨q, htn, hq⟩⟩
    cases hv : p.port with
    | undef => rw [hv] at htn; exact Option.noConfusion htn
    | nan => rw [hv] at htn; exact Option.noConfusion htn
    | num r =>
      rw [hv] at htn
      have hrq : r = q := Option.some_injective _ htn
      subst hrq
      show truthy (.num r) = true
      simp only [truthy, bne_iff_ne, ne_eq, decide_eq_true_eq]
      intro h0
      rw [h0] at hq
      exact lt_irrefl 0 hq
  · intro enabled i p q htn hq
    cases hg : PROTOCOLS[i]? with
    | none => simp [keepPredicate, hg]
    | some k =>
      have hle : ¬ q ≤ 65535 := not_le.mpr hq
      have hps : portSubmitOk p.port = false := by
        simp [portSubmitOk, htn, hle]
      simp [keepPredicate, hg, hps]

/-- C10 witness: the theorem applied at the 70000-port node: shadowsocks
is enabled at load and the unedited node is rejected whole at commit. -/
theorem C10_witness :
    (loadEnabledProtocols iv70000).contains "shadowsocks" = true ∧
      (handleSubmit (loadEditor iv70000 true) (fun _ => true) (some iv70000)).submission
        = none :=
  (C10_load_no_upper_bound iv70000 "shadowsocks" (by decide)).2.2.2

end ServerFormModel
